import Mathlib

/-!
# Verification of the infini.chat room actor (`src/InfinichatInstance.ts`)

This file gives a shallow embedding, in Lean 4, of the single-room session
actor of infini.chat: the Cloudflare Durable Object `InfinichatInstance`
that owns all live websocket connections of one room, tracks the regions
each connection subscribes to, keeps the reverse region-to-connections
index (`activeRegions`), validates and fans out cell updates, and rebuilds
its state from per-connection attachments after hibernation.

Modelling conventions:
* Websockets are identified by natural numbers.
* JavaScript `Map` objects are modelled as association lists; `Map.set`
  replaces the value at an existing key in place (keeping its position)
  and appends a new key at the end, `Map.delete` removes the key.  Keys
  in a JS `Map` are unique, so removal of every matching pair is the
  same operation on reachable states.
* JavaScript numbers are idealised as exact rationals (plus NaN and the
  infinities); floating-point rounding is not modelled.
* The `momentum` part of `ClientState` is never read or written by any
  handler and is omitted.
* Message sends are collected in an output list; transport failure of an
  individual send (the `catch` in `sendMessage`) is not modelled, sends
  always succeed.
-/

/-! ## Association-list model of JavaScript `Map` -/

def mapGet {α β : Type} [DecidableEq α] : List (α × β) → α → Option β
  | [], _ => none
  | (k, v) :: rest, key => if key = k then some v else mapGet rest key

/-- `Map.set`: replace the value at an existing key in place, else append. -/
def mapSet {α β : Type} [DecidableEq α] : List (α × β) → α → β → List (α × β)
  | [], key, v => [(key, v)]
  | (k, w) :: rest, key, v =>
      if key = k then (key, v) :: rest else (k, w) :: mapSet rest key v

/-- `Map.delete`: drop the pairs carrying the key (unique on reachable maps). -/
def mapDelete {α β : Type} [DecidableEq α] : List (α × β) → α → List (α × β)
  | [], _ => []
  | (k, w) :: rest, key =>
      if key = k then mapDelete rest key else (k, w) :: mapDelete rest key

theorem mapGet_mapSet_self {α β : Type} [DecidableEq α]
    (m : List (α × β)) (k : α) (v : β) : mapGet (mapSet m k v) k = some v := by
  induction m with
  | nil => simp [mapSet, mapGet]
  | cons e rest ih =>
      obtain ⟨k', w⟩ := e
      by_cases h : k = k' <;> simp [mapSet, mapGet, h, ih]

theorem mapGet_mapSet_ne {α β : Type} [DecidableEq α]
    (m : List (α × β)) (k k' : α) (v : β) (h : k' ≠ k) :
    mapGet (mapSet m k v) k' = mapGet m k' := by
  induction m with
  | nil => simp [mapSet, mapGet, h]
  | cons e rest ih =>
      obtain ⟨k'', w⟩ := e
      by_cases h2 : k = k''
      · subst h2; simp [mapSet, mapGet, h]
      · by_cases h3 : k' = k'' <;> simp [mapSet, mapGet, h2, h3, ih]

theorem mapGet_mapDelete_self {α β : Type} [DecidableEq α]
    (m : List (α × β)) (k : α) : mapGet (mapDelete m k) k = none := by
  induction m with
  | nil => simp [mapDelete, mapGet]
  | cons e rest ih =>
      obtain ⟨k', w⟩ := e
      by_cases h : k = k'
      · subst h; simp [mapDelete, mapGet, ih]
      · simp [mapDelete, mapGet, h, ih]

theorem mapGet_mapDelete_ne {α β : Type} [DecidableEq α]
    (m : List (α × β)) (k k' : α) (h : k' ≠ k) :
    mapGet (mapDelete m k) k' = mapGet m k' := by
  induction m with
  | nil => simp [mapDelete, mapGet]
  | cons e rest ih =>
      obtain ⟨k'', w⟩ := e
      by_cases h2 : k = k''
      · subst h2; simp [mapDelete, mapGet, h, ih]
      · by_cases h3 : k' = k'' <;> simp [mapDelete, mapGet, h2, h3, ih]

/-! ## JavaScript number coercion (`+string`), idealised over ℚ

`isValidRegion` relies on the JS unary-plus coercion of strings to numbers
(`+splitRegion[0]`), the `isNaN` check and the `% 1 !== 0` integrality
check.  We embed ECMAScript `ToNumber` on strings: whitespace-trimmed,
empty string is `0`, decimal literals with optional sign / fraction /
exponent, `Infinity`, and the unsigned `0x`/`0o`/`0b` radix forms; any
other string is NaN. -/

inductive JSNum where
  | nan : JSNum
  | inf : Bool → JSNum
  | finite : ℚ → JSNum
deriving DecidableEq

def JSNum.isNaN : JSNum → Bool
  | .nan => true
  | _ => false

/-- Whether `x % 1 !== 0` is *false* for the JS number `x`: true exactly for
finite integral values (`Infinity % 1` and `NaN % 1` are NaN, which
compares `!== 0`). -/
def jsMod1IsZero : JSNum → Bool
  | .finite q => q.den == 1
  | _ => false

def isJsWhitespace (c : Char) : Bool :=
  c == ' ' || c == '\t' || c == '\n' || c == '\r' ||
  c == '\x0b' || c == '\x0c' || c == '\u00A0' || c == '\uFEFF' ||
  c == '\u2028' || c == '\u2029'

def jsTrimChars (l : List Char) : List Char :=
  ((l.dropWhile isJsWhitespace).reverse.dropWhile isJsWhitespace).reverse

/-- `String.prototype.trim`. -/
def jsTrim (s : String) : String :=
  String.mk (jsTrimChars s.data)

def digitVal (c : Char) : ℕ := c.toNat - '0'.toNat

def decDigitsVal (l : List Char) : ℕ :=
  l.foldl (fun acc c => 10 * acc + digitVal c) 0

def isHexDigitChar (c : Char) : Bool :=
  c.isDigit || ('a' ≤ c && c ≤ 'f') || ('A' ≤ c && c ≤ 'F')

def hexDigitVal (c : Char) : ℕ :=
  if c.isDigit then digitVal c
  else if 'a' ≤ c then c.toNat - 'a'.toNat + 10
  else c.toNat - 'A'.toNat + 10

def hexDigitsVal (l : List Char) : ℕ :=
  l.foldl (fun acc c => 16 * acc + hexDigitVal c) 0

def isOctDigitChar (c : Char) : Bool := '0' ≤ c && c ≤ '7'

def octDigitsVal (l : List Char) : ℕ :=
  l.foldl (fun acc c => 8 * acc + digitVal c) 0

def isBinDigitChar (c : Char) : Bool := c == '0' || c == '1'

def binDigitsVal (l : List Char) : ℕ :=
  l.foldl (fun acc c => 2 * acc + digitVal c) 0

/-- The exponent suffix of a decimal literal: empty means exponent `0`,
otherwise `e`/`E`, an optional sign and a nonempty digit run consuming
the rest of the string. -/
def parseExponentSuffix : List Char → Option ℤ
  | [] => some 0
  | c :: rest =>
    if c == 'e' || c == 'E' then
      match rest with
      | '+' :: ds =>
          if !ds.isEmpty && ds.all Char.isDigit then some (decDigitsVal ds) else none
      | '-' :: ds =>
          if !ds.isEmpty && ds.all Char.isDigit then some (-(decDigitsVal ds : ℤ)) else none
      | ds =>
          if !ds.isEmpty && ds.all Char.isDigit then some (decDigitsVal ds) else none
    else none

inductive UnsignedVal where
  | infinity : UnsignedVal
  | val : ℚ → UnsignedVal
deriving DecidableEq

/-- The exact rational value `m × 10^ex`, built with `mkRat` (the `Rat`
field operations are `@[irreducible]`, so the value is assembled from
integer arithmetic instead, which the kernel can evaluate). -/
def decLiteralVal (m : ℕ) (ex : ℤ) : ℚ :=
  if 0 ≤ ex then ((m * 10 ^ ex.toNat : ℕ) : ℚ) else mkRat m (10 ^ (-ex).toNat)

/-- ECMAScript `StrUnsignedDecimalLiteral`: `Infinity`, or
`digits [. digits] [exp]`, or `. digits [exp]`.  The value of
`int.frac e exp` is `digits(int ++ frac) × 10^(exp - |frac|)`. -/
def parseUnsignedDec (l : List Char) : Option UnsignedVal :=
  if l = "Infinity".data then some .infinity
  else
    let intPart := l.takeWhile Char.isDigit
    let r1 := l.dropWhile Char.isDigit
    match r1 with
    | [] =>
        if intPart.isEmpty then none
        else some (.val (decDigitsVal intPart))
    | '.' :: r2 =>
        let fracPart := r2.takeWhile Char.isDigit
        let r3 := r2.dropWhile Char.isDigit
        if intPart.isEmpty && fracPart.isEmpty then none
        else
          match parseExponentSuffix r3 with
          | none => none
          | some e =>
              some (.val (decLiteralVal (decDigitsVal (intPart ++ fracPart))
                (e - fracPart.length)))
    | _ =>
        if intPart.isEmpty then none
        else
          match parseExponentSuffix r1 with
          | none => none
          | some e => some (.val (decLiteralVal (decDigitsVal intPart) e))

/-- The unsigned non-decimal integer literals `0x…`, `0o…`, `0b…`. -/
def parseNonDecimal (l : List Char) : Option ℚ :=
  match l with
  | c0 :: c :: rest =>
      if c0 = '0' then
        if c == 'x' || c == 'X' then
          if !rest.isEmpty && rest.all isHexDigitChar then some (hexDigitsVal rest) else none
        else if c == 'o' || c == 'O' then
          if !rest.isEmpty && rest.all isOctDigitChar then some (octDigitsVal rest) else none
        else if c == 'b' || c == 'B' then
          if !rest.isEmpty && rest.all isBinDigitChar then some (binDigitsVal rest) else none
        else none
      else none
  | _ => none

/-- The optional sign at the head of a `StrDecimalLiteral`: whether it is
negative, and the remainder. -/
def strSign (t : List Char) : Bool × List Char :=
  match t with
  | c :: r => if c = '-' then (true, r) else if c = '+' then (false, r) else (false, t)
  | [] => (false, [])

/-- ECMAScript `ToNumber` on a string (the JS expression `+s`), idealised
over exact rationals. -/
def jsStringToNumber (l : List Char) : JSNum :=
  if (jsTrimChars l).isEmpty then .finite 0
  else
    match parseNonDecimal (jsTrimChars l) with
    | some q => .finite q
    | none =>
        match parseUnsignedDec (strSign (jsTrimChars l)).2 with
        | some .infinity => .inf (strSign (jsTrimChars l)).1
        | some (.val q) =>
            .finite (if (strSign (jsTrimChars l)).1 then -q else q)
        | none => .nan

/-- `String.prototype.split` with a one-character separator. -/
def jsSplit (sep : Char) : List Char → List (List Char)
  | [] => [[]]
  | c :: rest =>
      if c = sep then [] :: jsSplit sep rest
      else
        match jsSplit sep rest with
        | [] => [[c]]
        | h :: t => (c :: h) :: t

-- Max number of regions one client can subscribe to at once
def MAX_ACTIVE_REGIONS : ℕ := 24

def REGION_WIDTH : ℕ := 3 * 24
def REGION_HEIGHT : ℕ := 2 * 24

/-- `isValidRegion`: must be a string formatted `"[number]-[number]"`.
Mirrors the source: reject empty, split on `-` into exactly two parts
(the `splitRegion.length !== 2` check, expressed as the match shape),
reject if either part coerces to NaN, reject if either fails
`% 1 === 0`.  Total: every string is mapped to a boolean. -/
def isValidRegion (regionString : String) : Bool :=
  if regionString.length == 0 then false
  else
    match jsSplit '-' regionString.data with
    | [a, b] =>
        if (jsStringToNumber a).isNaN || (jsStringToNumber b).isNaN then false
        else if !jsMod1IsZero (jsStringToNumber a) then false
        else if !jsMod1IsZero (jsStringToNumber b) then false
        else true
    | _ => false

example : isValidRegion "3-4" = true := by decide
example : isValidRegion "3.5-4" = false := by decide
example : isValidRegion "a-b" = false := by decide
example : isValidRegion "3" = false := by decide
example : isValidRegion "" = false := by decide
example : isValidRegion "-1-2" = false := by decide
example : isValidRegion "0-0" = true := by decide
example : isValidRegion "3-" = true := by decide
example : jsStringToNumber "1.5e2".data = .finite 150 := by decide
example : jsStringToNumber "0x10".data = .finite 16 := by decide
example : jsStringToNumber " 12 ".data = .finite 12 := by decide
example : jsStringToNumber "Infinity".data = .inf false := by decide

/-! ## Room state (`InfinichatInstance` fields)

`clients` and `activeRegions` are the two instance maps; `attachments`
models the per-websocket serialized attachment (the transport-persisted
`ClientState` blob written by `triggerClientSave`; a missing key stands
for a missing or corrupt attachment, since `JSON.stringify`/`JSON.parse`
round-trips the record exactly); `storage` models the durable key-value
store (`this.ctx.storage`). -/

structure ClientState where
  subscribedRegions : List String
deriving DecidableEq

structure RoomState where
  clients : List (ℕ × ClientState)
  activeRegions : List (String × List ℕ)
  attachments : List (ℕ × ClientState)
  storage : List (String × String)
deriving DecidableEq

def defaultClientState : ClientState := { subscribedRegions := [] }

/-- A single-cell edit as carried by an `update` message.  Positions are
idealised JS numbers; entries whose positions are not numbers at all
simply fail `isValidUpdate` and are outside this model. -/
structure UpdateMsg where
  region : String
  x : ℚ
  y : ℚ
  value : String
deriving DecidableEq

/-- Outbound envelope bodies (the `type` + `data` part; the constant
`id`/`name` room identity of `serializeMsg` is omitted). -/
inductive OutMsg where
  | error (msg : String)
  | subscriptions (subscribedRegions unsubscribedRegions : List String)
  | regionData (regions : List (String × Option String))
  | updateMsg (u : UpdateMsg)
deriving DecidableEq

/-- The `data.regions` part of a subscribe/unsubscribe/load request:
`malformed` covers `!data.regions || !Array.isArray(data.regions)`. -/
inductive RegionsRequest where
  | malformed
  | given (regions : List String)
deriving DecidableEq

/-- The `data.updates` part of an update request. -/
inductive UpdatesRequest where
  | malformed
  | given (updates : List UpdateMsg)
deriving DecidableEq

/-- `isValidUpdate`: region valid, both positions integral numbers, value
exactly one character. -/
def isValidUpdate (changeObject : UpdateMsg) : Bool :=
  isValidRegion changeObject.region &&
  changeObject.x.den == 1 && changeObject.y.den == 1 &&
  changeObject.value.length == 1

/-- The broadcast copy built inside `update`: a new object from the fields
`region`, `position.x`/`position.y` cast with unary `+` (identity on
numbers) and `value.slice(0, 1)`. -/
def freshUpdateMessage (change : UpdateMsg) : UpdateMsg :=
  { region := change.region, x := change.x, y := change.y,
    value := change.value.take 1 }

/-- What a `regionData` reply reports for one region: the stored string if
present and truthy, otherwise absent (`null` / no entry). -/
def regionDataView (storage : List (String × String)) (region : String) :
    Option String :=
  match mapGet storage region with
  | some data => if data.length == 0 then none else some data
  | none => none

/-- `sendRegions`: batch-read the requested regions from storage. -/
def sendRegionsData (storage : List (String × String)) (regions : List String) :
    List (String × Option String) :=
  regions.map (fun region => (region, regionDataView storage region))

/-- One iteration of the `addClientToRegions` loop: append `ws` to the
region's entry unless already present. -/
def addOneRegion (s : RoomState) (ws : ℕ) (region : String) : RoomState :=
  let existingClients := (mapGet s.activeRegions region).getD []
  if ws ∈ existingClients then s
  else { s with activeRegions :=
          mapSet s.activeRegions region (existingClients ++ [ws]) }

/-- `addClientToRegions`: mark `ws` as a subscriber of each region in
`activeRegions`, appending to the entry unless already present. -/
def addClientToRegions (st : RoomState) (ws : ℕ) (regions : List String) :
    RoomState :=
  regions.foldl (fun s region => addOneRegion s ws region) st

/-- `unloadRegion`: drop a region's `activeRegions` entry. -/
def unloadRegion (st : RoomState) (region : String) : RoomState :=
  { st with activeRegions := mapDelete st.activeRegions region }

/-- One iteration of the `removeClientFromRegions` loop: splice `ws` out of
the region's entry if present (`idx === -1` is the not-present early
return), tearing the entry down via `unloadRegion` when it empties. -/
def removeOneRegion (s : RoomState) (ws : ℕ) (region : String) : RoomState :=
  let existingClients := (mapGet s.activeRegions region).getD []
  if ws ∉ existingClients then s
  else
    let remaining := existingClients.erase ws
    if remaining.length = 0 then unloadRegion s region
    else { s with activeRegions := mapSet s.activeRegions region remaining }

/-- `removeClientFromRegions`: remove `ws` from the named regions (or from
every region when none are given), tearing down entries left empty. -/
def removeClientFromRegions (st : RoomState) (ws : ℕ)
    (regions : Option (List String)) : RoomState :=
  let targetRegions := regions.getD (st.activeRegions.map (fun e => e.1))
  targetRegions.foldl (fun s region => removeOneRegion s ws region) st

/-- `triggerClientSave`: serialize the client's current `ClientState` into
its websocket attachment. -/
def triggerClientSave (st : RoomState) (ws : ℕ) : RoomState :=
  match mapGet st.clients ws with
  | none => st
  | some attachmentData =>
      { st with attachments := mapSet st.attachments ws attachmentData }

/-- The `subscribe` handler.  Faithful to the source, including storing the
un-truncated `allRegions` list (not the capped `subscribedRegions`) in the
client map and attachment. -/
def subscribe (st : RoomState) (ws : ℕ) (data : RegionsRequest) :
    RoomState × List (ℕ × OutMsg) :=
  match data with
  | .malformed => (st, [(ws, .error "Subscribe request is malformed")])
  | .given regions =>
    if regions.length = 0 then
      (st, [(ws, .error "Specify at least 1 region to subscribe to")])
    else if MAX_ACTIVE_REGIONS < regions.length then
      (st, [(ws, .error "Cannot subscribe to more than 24 regions")])
    else if regions.any (fun region => !isValidRegion region) then
      (st, [(ws, .error "One or more region keys is invalid")])
    else
      let clientState := (mapGet st.clients ws).getD defaultClientState
      let existingRegions := clientState.subscribedRegions
      -- older subscriptions first, new ones last; skip duplicates
      let allRegions := (existingRegions ++ regions).foldl
        (fun accum region => if region ∈ accum then accum else accum ++ [region]) []
      -- keep only the last MAX_ACTIVE_REGIONS entries
      let subscribedRegions := allRegions.drop (allRegions.length - MAX_ACTIVE_REGIONS)
      let unsubscribedRegions := allRegions.take (allRegions.length - MAX_ACTIVE_REGIONS)
      let newClientState : ClientState := { subscribedRegions := allRegions }
      let st1 := { st with clients := mapSet st.clients ws newClientState }
      let st2 := triggerClientSave st1 ws
      let st3 := addClientToRegions st2 ws subscribedRegions
      let st4 := removeClientFromRegions st3 ws (some unsubscribedRegions)
      (st4, [(ws, .subscriptions subscribedRegions unsubscribedRegions),
             (ws, .regionData (sendRegionsData st4.storage subscribedRegions))])

/-- The `unsubscribe` handler.  Note: the source has no emptiness check on
`data.regions`; an empty list passes validation and is a no-op. -/
def unsubscribe (st : RoomState) (ws : ℕ) (data : RegionsRequest) :
    RoomState × List (ℕ × OutMsg) :=
  match data with
  | .malformed => (st, [(ws, .error "Unsubscribe request is malformed")])
  | .given regions =>
    if regions.any (fun region => !isValidRegion region) then
      (st, [(ws, .error "One or more region keys is invalid")])
    else
      let clientState := (mapGet st.clients ws).getD defaultClientState
      let existingRegions := clientState.subscribedRegions
      let updatedRegions := existingRegions.filter (fun region => region ∉ regions)
      let newClientState : ClientState := { subscribedRegions := updatedRegions }
      let st1 := { st with clients := mapSet st.clients ws newClientState }
      let st2 := triggerClientSave st1 ws
      (removeClientFromRegions st2 ws (some regions), [])

/-- The `update` handler: validate the batch, require the sender to be
subscribed to every named region, then fan out a fresh copy of each change
to that region's `activeRegions` entry, skipping the sender. -/
def update (st : RoomState) (ws : ℕ) (data : UpdatesRequest) :
    RoomState × List (ℕ × OutMsg) :=
  match data with
  | .malformed => (st, [(ws, .error "Update request is malformed")])
  | .given updates =>
    if updates.length = 0 then (st, [(ws, .error "Provide at least 1 change")])
    else if updates.any (fun u => !isValidUpdate u) then
      (st, [(ws, .error "Update values are invalid")])
    else
      match mapGet st.clients ws with
      | none => (st, [(ws, .error "Unknown client")])
      | some clientState =>
        if updates.any (fun u => u.region ∉ clientState.subscribedRegions) then
          (st, [(ws, .error "Attempted to update regions which client is not subscribed to")])
        else
          (st, (updates.map (fun change =>
            let regionSubscribers := (mapGet st.activeRegions change.region).getD []
            if regionSubscribers.length = 0 then []
            else (regionSubscribers.filter (fun client => client ≠ ws)).map
              (fun client => (client, OutMsg.updateMsg (freshUpdateMessage change)))
            )).flatten)

/-- The `load` handler: subscribe-style validation, then a one-shot
`regionData` reply with no subscription side effect. -/
def load (st : RoomState) (ws : ℕ) (data : RegionsRequest) :
    RoomState × List (ℕ × OutMsg) :=
  match data with
  | .malformed => (st, [(ws, .error "Unsubscribe request is malformed")])
  | .given regions =>
    if regions.length = 0 then
      (st, [(ws, .error "Specify at least 1 region to load")])
    else if MAX_ACTIVE_REGIONS < regions.length then
      (st, [(ws, .error "Cannot load more than 24 regions at a time")])
    else if regions.any (fun region => !isValidRegion region) then
      (st, [(ws, .error "One or more region keys is invalid")])
    else
      (st, [(ws, .regionData (sendRegionsData st.storage regions))])

/-- `webSocketClose`.  Faithful to the source, where
`websockets.splice(idx, 1)` *returns the removed elements*, so
`this.activeRegions.set(regionName, websockets.splice(idx, 1))` stores the
singleton `[ws]` as the region's new subscriber list. -/
def webSocketClose (st : RoomState) (ws : ℕ) : RoomState :=
  let st1 := { st with activeRegions :=
    st.activeRegions.map (fun (e : String × List ℕ) =>
      if ws ∈ e.2 then (e.1, [ws]) else e) }
  { st1 with clients := mapDelete st1.clients ws }

/-- `saveRegion`: delete when the content trims to empty, reject content
whose length is not exactly `REGION_WIDTH * REGION_HEIGHT` (the thrown
`Error`), otherwise store it. -/
def saveRegion (storage : List (String × String)) (region : String)
    (regionData : String) : Except String (List (String × String)) :=
  if (jsTrim regionData).length = 0 then .ok (mapDelete storage region)
  else if regionData.length ≠ REGION_WIDTH * REGION_HEIGHT then
    .error "Tried to save a region of unexpected length"
  else .ok (mapSet storage region regionData)

/-- The constructor's revival loop: for every websocket the runtime still
holds, parse its attachment (defaulting to an empty `ClientState` when the
attachment is missing or corrupt), re-associate it in `clients`, and
re-subscribe it via `addClientToRegions`. -/
def reviveInstance (conns : List (ℕ × Option ClientState))
    (storage : List (String × String)) : RoomState :=
  conns.foldl (fun st p =>
    let clientState := p.2.getD defaultClientState
    let st1 := { st with clients := mapSet st.clients p.1 clientState }
    addClientToRegions st1 p.1 clientState.subscribedRegions)
    { clients := [], activeRegions := [],
      attachments := conns.filterMap (fun p => p.2.map (fun c => (p.1, c))),
      storage := storage }

/-! ## Inbound message decoding (`deserializeMsg` / `webSocketMessage`) -/

/-- The shape-relevant part of a successfully JSON-parsed inbound payload:
truthiness of the `message` and `data` fields (the two fields
`deserializeMsg` actually checks) and the `type` and `payload` fields (the
two fields it actually reads). -/
structure ParsedJson where
  hasMessageField : Bool
  hasDataField : Bool
  typeField : Option String
  payloadField : Option RegionsRequest
deriving DecidableEq

structure IncomingMessage where
  type : Option String
  data : Option RegionsRequest
deriving DecidableEq

/-- `deserializeMsg`: `none` input models a JSON parse failure; otherwise
the source requires truthy `payload.message` and `payload.data`, then
returns `{type: payload.type, data: payload.payload}`. -/
def deserializeMsg (rawMessage : Option ParsedJson) :
    Except String IncomingMessage :=
  match rawMessage with
  | none => .error "JSON parse failure"
  | some payload =>
    if !payload.hasMessageField || !payload.hasDataField then
      .error "Incoming websocket message had an unexpected struture"
    else
      .ok { type := payload.typeField, data := payload.payloadField }

/-- `["subscribe", "unsubscribe", "update", "load"].includes(message.type)`;
an absent `type` (undefined) is never included. -/
def isRecognizedType : Option String → Bool
  | some t => ["subscribe", "unsubscribe", "update", "load"].contains t
  | none => false

/-- The routing decision of `webSocketMessage`: decode failure reports
"Unexpected message payload", an unrecognized type reports the unknown-type
error, otherwise the message is dispatched to its handler. -/
inductive Dispatch where
  | malformedPayload
  | unknownType (t : Option String)
  | handled (t : String) (data : Option RegionsRequest)
deriving DecidableEq

def webSocketMessageDispatch (raw : Option ParsedJson) : Dispatch :=
  match deserializeMsg raw with
  | .error _ => .malformedPayload
  | .ok message =>
    if !isRecognizedType message.type then .unknownType message.type
    else .handled (message.type.getD "") message.data

/-! ## Frame lemmas: which state components each helper touches -/

theorem foldl_field_preserved {α β : Type} (f : RoomState → α → RoomState)
    (P : RoomState → β) (h : ∀ s a, P (f s a) = P s) (l : List α) :
    ∀ s : RoomState, P (l.foldl f s) = P s := by
  induction l with
  | nil => intro s; rfl
  | cons x xs ih => intro s; rw [List.foldl_cons, ih, h]

theorem addOneRegion_clients (s : RoomState) (ws : ℕ) (region : String) :
    (addOneRegion s ws region).clients = s.clients := by
  unfold addOneRegion; dsimp only; split <;> rfl

theorem addOneRegion_attachments (s : RoomState) (ws : ℕ) (region : String) :
    (addOneRegion s ws region).attachments = s.attachments := by
  unfold addOneRegion; dsimp only; split <;> rfl

theorem addOneRegion_storage (s : RoomState) (ws : ℕ) (region : String) :
    (addOneRegion s ws region).storage = s.storage := by
  unfold addOneRegion; dsimp only; split <;> rfl

theorem removeOneRegion_clients (s : RoomState) (ws : ℕ) (region : String) :
    (removeOneRegion s ws region).clients = s.clients := by
  unfold removeOneRegion; dsimp only; split
  · rfl
  · split <;> rfl

theorem removeOneRegion_attachments (s : RoomState) (ws : ℕ) (region : String) :
    (removeOneRegion s ws region).attachments = s.attachments := by
  unfold removeOneRegion; dsimp only; split
  · rfl
  · split <;> rfl

theorem removeOneRegion_storage (s : RoomState) (ws : ℕ) (region : String) :
    (removeOneRegion s ws region).storage = s.storage := by
  unfold removeOneRegion; dsimp only; split
  · rfl
  · split <;> rfl

theorem addClientToRegions_clients (st : RoomState) (ws : ℕ) (regions : List String) :
    (addClientToRegions st ws regions).clients = st.clients :=
  foldl_field_preserved _ _ (fun s r => addOneRegion_clients s ws r) regions st

theorem addClientToRegions_attachments (st : RoomState) (ws : ℕ) (regions : List String) :
    (addClientToRegions st ws regions).attachments = st.attachments :=
  foldl_field_preserved _ _ (fun s r => addOneRegion_attachments s ws r) regions st

theorem addClientToRegions_storage (st : RoomState) (ws : ℕ) (regions : List String) :
    (addClientToRegions st ws regions).storage = st.storage :=
  foldl_field_preserved _ _ (fun s r => addOneRegion_storage s ws r) regions st

theorem removeClientFromRegions_clients (st : RoomState) (ws : ℕ)
    (regions : Option (List String)) :
    (removeClientFromRegions st ws regions).clients = st.clients :=
  foldl_field_preserved _ _ (fun s r => removeOneRegion_clients s ws r) _ st

theorem removeClientFromRegions_attachments (st : RoomState) (ws : ℕ)
    (regions : Option (List String)) :
    (removeClientFromRegions st ws regions).attachments = st.attachments :=
  foldl_field_preserved _ _ (fun s r => removeOneRegion_attachments s ws r) _ st

theorem removeClientFromRegions_storage (st : RoomState) (ws : ℕ)
    (regions : Option (List String)) :
    (removeClientFromRegions st ws regions).storage = st.storage :=
  foldl_field_preserved _ _ (fun s r => removeOneRegion_storage s ws r) _ st

theorem triggerClientSave_clients (st : RoomState) (ws : ℕ) :
    (triggerClientSave st ws).clients = st.clients := by
  unfold triggerClientSave; cases mapGet st.clients ws <;> rfl

theorem triggerClientSave_activeRegions (st : RoomState) (ws : ℕ) :
    (triggerClientSave st ws).activeRegions = st.activeRegions := by
  unfold triggerClientSave; cases mapGet st.clients ws <;> rfl

theorem triggerClientSave_storage (st : RoomState) (ws : ℕ) :
    (triggerClientSave st ws).storage = st.storage := by
  unfold triggerClientSave; cases mapGet st.clients ws <;> rfl

theorem subscribe_storage (st : RoomState) (ws : ℕ) (data : RegionsRequest) :
    (subscribe st ws data).1.storage = st.storage := by
  cases data with
  | malformed => rfl
  | given regions =>
      unfold subscribe; dsimp only
      split
      · rfl
      split
      · rfl
      split
      · rfl
      simp [removeClientFromRegions_storage, addClientToRegions_storage,
        triggerClientSave_storage]

theorem unsubscribe_storage (st : RoomState) (ws : ℕ) (data : RegionsRequest) :
    (unsubscribe st ws data).1.storage = st.storage := by
  cases data with
  | malformed => rfl
  | given regions =>
      unfold unsubscribe; dsimp only
      split
      · rfl
      simp [removeClientFromRegions_storage, triggerClientSave_storage]

theorem update_storage (st : RoomState) (ws : ℕ) (data : UpdatesRequest) :
    (update st ws data).1.storage = st.storage := by
  cases data with
  | malformed => rfl
  | given updates =>
      unfold update; dsimp only
      split
      · rfl
      split
      · rfl
      split <;> (try rfl)
      split <;> rfl

theorem load_storage (st : RoomState) (ws : ℕ) (data : RegionsRequest) :
    (load st ws data).1.storage = st.storage := by
  cases data with
  | malformed => rfl
  | given regions =>
      unfold load; dsimp only
      split
      · rfl
      split
      · rfl
      split <;> rfl

/-- **C10** (frame effect): no inbound command writes region content to
persistent storage — `subscribe`, `unsubscribe`, `update` and `load` all
leave the `storage` component of the room state unchanged (`saveRegion` is
never invoked by any message handler). -/
theorem inbound_commands_never_write_storage :
    (∀ (st : RoomState) (ws : ℕ) (data : RegionsRequest),
        (subscribe st ws data).1.storage = st.storage) ∧
    (∀ (st : RoomState) (ws : ℕ) (data : RegionsRequest),
        (unsubscribe st ws data).1.storage = st.storage) ∧
    (∀ (st : RoomState) (ws : ℕ) (data : UpdatesRequest),
        (update st ws data).1.storage = st.storage) ∧
    (∀ (st : RoomState) (ws : ℕ) (data : RegionsRequest),
        (load st ws data).1.storage = st.storage) :=
  ⟨subscribe_storage, unsubscribe_storage, update_storage, load_storage⟩

/-! ## Concrete scenarios exercising the connection lifecycle -/

/-- The freshly created, empty room. -/
def emptyRoom : RoomState :=
  { clients := [], activeRegions := [], attachments := [], storage := [] }

/-- Clients `0` and `1` both subscribed to region `"1-1"`. -/
def twoClientRoom : RoomState :=
  (subscribe (subscribe emptyRoom 0 (.given ["1-1"])).1 1 (.given ["1-1"])).1

/-- 24 distinct valid region keys `"0-0" … "0-23"`. -/
def regs24 : List String := (List.range 24).map (fun i => "0-" ++ toString i)

/-- Client `0` subscribes to 24 regions, then to one more, overflowing the
`MAX_ACTIVE_REGIONS` cap and evicting `"0-0"` from the Index. -/
def overflowRoom : RoomState :=
  (subscribe (subscribe emptyRoom 0 (.given regs24)).1 0 (.given ["0-24"])).1

/-- **C2** (code bug): after client `0` (subscribed to `"1-1"` together
with client `1`) closes, the Index entry for `"1-1"` is `[0]` — the
*closed* socket, with client `1` dropped — instead of being torn down;
`splice(idx, 1)` returns the removed elements and that return value is
stored back via `Map.set`.  Only the `clients` record is dropped
correctly. -/
theorem webSocketClose_leaves_closed_socket_in_index :
    mapGet twoClientRoom.activeRegions "1-1" = some [0, 1] ∧
    mapGet (webSocketClose twoClientRoom 0).activeRegions "1-1" = some [0] ∧
    mapGet (webSocketClose twoClientRoom 0).clients 0 = none := by decide

set_option maxRecDepth 8000 in
/-- **C1** (code bug): after the 25th subscription, the connection's
recorded `subscribedRegions` (the `clients` map stores the un-truncated
`allRegions`) has 25 entries — above `MAX_ACTIVE_REGIONS = 24` — and
contains `"0-0"` even though the Index has no `"0-0"` entry, breaking both
the length bound and the bidirectional invariant. -/
theorem subscribe_overflow_breaks_invariant :
    ((mapGet overflowRoom.clients 0).getD defaultClientState).subscribedRegions.length = 25 ∧
    MAX_ACTIVE_REGIONS = 24 ∧
    "0-0" ∈ ((mapGet overflowRoom.clients 0).getD defaultClientState).subscribedRegions ∧
    mapGet overflowRoom.activeRegions "0-0" = none := by decide

set_option maxRecDepth 8000 in
/-- **C5** (code bug): reviving the actor from the stored attachment does
not reproduce the pre-teardown Index: the attachment holds the
un-truncated 25-region list, so the revived Index regains the evicted
entry `"0-0"` that the pre-teardown Index did not have. -/
theorem revival_index_differs_from_preteardown :
    mapGet overflowRoom.activeRegions "0-0" = none ∧
    mapGet (reviveInstance [(0, mapGet overflowRoom.attachments 0)]
      overflowRoom.storage).activeRegions "0-0" = some [0] := by decide

/-- The parse result of `{"type":"subscribe","data":{"regions":["1-1"]}}`:
no `message` or `payload` fields, truthy `data`, a string `type`. -/
def specShapedPayload : ParsedJson :=
  { hasMessageField := false, hasDataField := true,
    typeField := some "subscribe", payloadField := some (.given ["1-1"]) }

/-- A payload with truthy `message` and `data` fields but nothing else. -/
def messageDataOnlyPayload : ParsedJson :=
  { hasMessageField := true, hasDataField := true,
    typeField := none, payloadField := none }

/-- A well-shaped (per the source's own checks) payload whose type is not
one of the four recognized commands. -/
def unknownTypePayload : ParsedJson :=
  { hasMessageField := true, hasDataField := true,
    typeField := some "frobnicate", payloadField := some (.given []) }

/-- **C6** (code bug): a payload shaped exactly as the spec's inbound
contract (a string `type` field and a mapping `data` field) is *rejected*
by `deserializeMsg` — the source tests the `message` and `data` fields and
reads `type` and `payload` — while a payload with truthy `message` and
`data` fields but no `type` at all "decodes" successfully to an undefined
type; unrecognized types are reported via an error envelope without
crashing the actor. -/
theorem deserializeMsg_rejects_spec_shape :
    deserializeMsg (some specShapedPayload) =
      .error "Incoming websocket message had an unexpected struture" ∧
    webSocketMessageDispatch (some specShapedPayload) = .malformedPayload ∧
    deserializeMsg (some messageDataOnlyPayload) = .ok { type := none, data := none } ∧
    webSocketMessageDispatch (some unknownTypePayload) =
      .unknownType (some "frobnicate") := ⟨rfl, rfl, rfl, rfl⟩

theorem dropWhile_eq_self_of_none {p : Char → Bool} {l : List Char}
    (h : ∀ c ∈ l, p c = false) : l.dropWhile p = l := by
  cases l with
  | nil => rfl
  | cons c rest => simp [List.dropWhile_cons, h c (by simp)]

theorem dropWhile_eq_nil_of_all {p : Char → Bool} {l : List Char}
    (h : ∀ c ∈ l, p c = true) : l.dropWhile p = [] := by
  induction l with
  | nil => rfl
  | cons c rest ih => simp [List.dropWhile_cons, h c (by simp), ih (fun d hd => h d (by simp [hd]))]

theorem takeWhile_eq_self_of_all {p : Char → Bool} {l : List Char}
    (h : ∀ c ∈ l, p c = true) : l.takeWhile p = l := by
  induction l with
  | nil => rfl
  | cons c rest ih => simp [List.takeWhile_cons, h c (by simp), ih (fun d hd => h d (by simp [hd]))]

theorem jsTrimChars_eq_self {l : List Char}
    (h : ∀ c ∈ l, isJsWhitespace c = false) : jsTrimChars l = l := by
  unfold jsTrimChars
  rw [dropWhile_eq_self_of_none h,
    dropWhile_eq_self_of_none (fun c hc => h c (List.mem_reverse.mp hc)),
    List.reverse_reverse]

theorem beq_false_of_isDigit {c d : Char} (h : c.isDigit = true)
    (hd : d.isDigit = false) : (c == d) = false := by
  cases hb : c == d
  · rfl
  · exfalso; rw [beq_iff_eq] at hb; subst hb; rw [h] at hd; cases hd

theorem ne_of_isDigit {c d : Char} (h : c.isDigit = true)
    (hd : d.isDigit = false) : c ≠ d := by
  intro he; subst he; rw [h] at hd; cases hd

theorem isJsWhitespace_false_of_isDigit {c : Char} (h : c.isDigit = true) :
    isJsWhitespace c = false := by
  unfold isJsWhitespace
  rw [beq_false_of_isDigit h (by decide), beq_false_of_isDigit h (by decide),
    beq_false_of_isDigit h (by decide), beq_false_of_isDigit h (by decide),
    beq_false_of_isDigit h (by decide), beq_false_of_isDigit h (by decide),
    beq_false_of_isDigit h (by decide), beq_false_of_isDigit h (by decide),
    beq_false_of_isDigit h (by decide), beq_false_of_isDigit h (by decide)]
  rfl

theorem parseNonDecimal_of_digits {l : List Char}
    (h : ∀ c ∈ l, c.isDigit = true) : parseNonDecimal l = none := by
  match l with
  | [] => rfl
  | [c] => rfl
  | c0 :: c1 :: rest =>
      unfold parseNonDecimal
      dsimp only
      by_cases h0 : c0 = '0'
      · have h1 : c1.isDigit = true := h c1 (by simp)
        rw [if_pos h0, beq_false_of_isDigit h1 (by decide),
          beq_false_of_isDigit h1 (by decide), beq_false_of_isDigit h1 (by decide),
          beq_false_of_isDigit h1 (by decide), beq_false_of_isDigit h1 (by decide),
          beq_false_of_isDigit h1 (by decide)]
        rfl
      · rw [if_neg h0]

theorem parseUnsignedDec_of_digits {l : List Char} (hne : l ≠ [])
    (h : ∀ c ∈ l, c.isDigit = true) :
    parseUnsignedDec l = some (.val ((decDigitsVal l : ℚ))) := by
  have hinf : l ≠ "Infinity".data := by
    intro he
    have := h 'I' (by rw [he]; decide)
    exact absurd this (by decide)
  unfold parseUnsignedDec
  rw [if_neg hinf, dropWhile_eq_nil_of_all h, takeWhile_eq_self_of_all h]
  simp [List.isEmpty_iff, hne]

theorem strSign_of_digit_head {l : List Char} (hne : l ≠ [])
    (h : ∀ c ∈ l, c.isDigit = true) : strSign l = (false, l) := by
  cases l with
  | nil => exact absurd rfl hne
  | cons c rest =>
      have hc : c.isDigit = true := h c (by simp)
      unfold strSign
      dsimp only
      rw [if_neg (ne_of_isDigit hc (by decide)), if_neg (ne_of_isDigit hc (by decide))]

theorem jsStringToNumber_of_digits {l : List Char} (hne : l ≠ [])
    (h : ∀ c ∈ l, c.isDigit = true) :
    jsStringToNumber l = .finite ((decDigitsVal l : ℚ)) := by
  unfold jsStringToNumber
  rw [jsTrimChars_eq_self (fun c hc => isJsWhitespace_false_of_isDigit (h c hc))]
  rw [parseNonDecimal_of_digits h, strSign_of_digit_head hne h]
  simp [List.isEmpty_iff, hne, parseUnsignedDec_of_digits hne h]

/-- A string "parses as a number with no fractional part" (the spec's
phrase): its JS number coercion is finite and integral. -/
def integralNumericStr (l : List Char) : Prop :=
  ∃ q : ℚ, jsStringToNumber l = .finite q ∧ q.den = 1

/-- The spec's characterization of region-key validity: the string splits
on `-` into exactly two substrings, both integral-numeric. -/
def specValidRegionKey (s : String) : Prop :=
  match jsSplit '-' s.data with
  | [a, b] => integralNumericStr a ∧ integralNumericStr b
  | _ => False

theorem isValidRegion_iff_specValid (s : String) :
    isValidRegion s = true ↔ specValidRegionKey s := by
  unfold isValidRegion specValidRegionKey
  cases h0 : (s.length == 0) with
  | true =>
      have h1 : s.length = 0 := by simpa using h0
      have hd : s.data = [] := List.eq_nil_of_length_eq_zero h1
      rw [hd]
      simp [jsSplit]
  | false =>
      simp only [Bool.false_eq_true, if_false]
      cases hsp : jsSplit '-' s.data with
      | nil => simp
      | cons a t =>
          cases t with
          | nil => simp
          | cons b t2 =>
              cases t2 with
              | cons c t3 => simp
              | nil =>
                  cases ha : jsStringToNumber a <;> cases hb : jsStringToNumber b <;>
                    simp [JSNum.isNaN, jsMod1IsZero, integralNumericStr, ha, hb]

theorem jsSplit_sepFree {l : List Char} (h : '-' ∉ l) : jsSplit '-' l = [l] := by
  induction l with
  | nil => rfl
  | cons c rest ih =>
      unfold jsSplit
      rw [if_neg (by intro he; exact h (by simp [he]))]
      rw [ih (fun hm => h (by simp [hm]))]

theorem jsSplit_append {a : List Char} (b : List Char) (h : '-' ∉ a) :
    jsSplit '-' (a ++ '-' :: b) = a :: jsSplit '-' b := by
  induction a with
  | nil => simp [jsSplit]
  | cons c rest ih =>
      simp only [List.cons_append]
      simp only [jsSplit]
      rw [if_neg (by intro he; exact h (by simp [he]))]
      rw [ih (fun hm => h (by simp [hm]))]

theorem isValidRegion_of_digit_pair {a b : List Char} (hna : a ≠ []) (hnb : b ≠ [])
    (ha : ∀ c ∈ a, c.isDigit = true) (hb : ∀ c ∈ b, c.isDigit = true) :
    isValidRegion (String.mk (a ++ '-' :: b)) = true := by
  unfold isValidRegion
  have hsepa : '-' ∉ a := fun hm => absurd (ha '-' hm) (by decide)
  have hsepb : '-' ∉ b := fun hm => absurd (hb '-' hm) (by decide)
  have hlen : ((String.mk (a ++ '-' :: b)).length == 0) = false := by
    simp [String.length]
  rw [hlen]
  simp only [Bool.false_eq_true, if_false]
  rw [jsSplit_append b hsepa, jsSplit_sepFree hsepb]
  dsimp only
  rw [jsStringToNumber_of_digits hna ha, jsStringToNumber_of_digits hnb hb]
  simp [JSNum.isNaN, jsMod1IsZero]

/-- The canonical textual form of a signed integer pair. -/
def canonicalRegionKey (col row : ℤ) : String :=
  toString col ++ "-" ++ toString row


/-- **C8** counterexample: `"-1-2"` is the canonical textual form of the
signed pair `(-1, 2)`, yet the validator rejects it — `split("-")` yields
three parts for any negative coordinate — so "the canonical textual form
of every pair of signed integers is accepted" is false on the code. -/
theorem canonicalKey_of_negative_pair_rejected :
    canonicalRegionKey (-1) 2 = "-1-2" ∧ isValidRegion "-1-2" = false := by
  decide

/-- **C8** (amended): the validator accepts a string iff it splits on `-`
into exactly two substrings that both coerce to numbers with no
fractional part; the canonical form of every pair of *nonnegative*
integers (two nonempty digit runs) is accepted; `"3-4"` is accepted with
parts parsing as `(3, 4)`; `"3.5-4"`, `"a-b"`, `"3"` and `""` are all
rejected; the validator is a total boolean function, so it never throws. -/
theorem isValidRegion_characterization :
    (∀ s : String, isValidRegion s = true ↔ specValidRegionKey s) ∧
    (∀ a b : List Char, a ≠ [] → b ≠ [] → (∀ c ∈ a, c.isDigit = true) →
      (∀ c ∈ b, c.isDigit = true) →
      isValidRegion (String.mk (a ++ '-' :: b)) = true) ∧
    (isValidRegion "3-4" = true ∧
      jsStringToNumber "3".data = .finite 3 ∧
      jsStringToNumber "4".data = .finite 4) ∧
    isValidRegion "3.5-4" = false ∧ isValidRegion "a-b" = false ∧
    isValidRegion "3" = false ∧ isValidRegion "" = false :=
  ⟨isValidRegion_iff_specValid,
    fun _ _ hna hnb ha hb => isValidRegion_of_digit_pair hna hnb ha hb,
    ⟨by decide, by decide, by decide⟩, by decide, by decide, by decide, by decide⟩

/-- Witness for the hypotheses of `isValidRegion_characterization`: the
digit-run clause applied at `"12-345"`. -/
theorem isValidRegion_characterization_witness :
    isValidRegion (String.mk (['1', '2'] ++ '-' :: ['3', '4', '5'])) = true :=
  isValidRegion_characterization.2.1 ['1', '2'] ['3', '4', '5']
    (by decide) (by decide) (by decide) (by decide)

theorem jsTrimChars_replicate_space (n : ℕ) :
    jsTrimChars (List.replicate n ' ') = [] := by
  unfold jsTrimChars
  rw [show List.dropWhile isJsWhitespace (List.replicate n ' ') = [] from
    dropWhile_eq_nil_of_all (fun c hc => by rw [List.eq_of_mem_replicate hc]; rfl)]
  rfl

/-- The all-blank full-size region buffer: 3456 spaces. -/
def blankRegionContent : String :=
  String.mk (List.replicate (REGION_WIDTH * REGION_HEIGHT) ' ')

/-- **C7** counterexample: the all-blank content has exactly
`WIDTH*HEIGHT` characters, yet `saveRegion` *deletes* the key (the content
trims to empty), so the subsequent load reports the region absent rather
than returning the content — the claim's unconditional round-trip is false
for whitespace-only content of full size. -/
theorem saveRegion_blank_roundtrip_fails :
    blankRegionContent.length = REGION_WIDTH * REGION_HEIGHT ∧
    saveRegion [] "1-1" blankRegionContent = .ok [] ∧
    regionDataView [] "1-1" = none := by
  refine ⟨?_, ?_, rfl⟩
  · simp [blankRegionContent, String.length]
  · unfold saveRegion
    rw [if_pos]
    · rfl
    · show (jsTrim blankRegionContent).length = 0
      unfold jsTrim blankRegionContent
      rw [show (String.mk (List.replicate (REGION_WIDTH * REGION_HEIGHT) ' ')).data
            = List.replicate (REGION_WIDTH * REGION_HEIGHT) ' ' from rfl,
        jsTrimChars_replicate_space]
      rfl

/-- **C7** (amended): for every region key and every content string of
length `WIDTH*HEIGHT` (3456) that does not trim to empty, `saveRegion`
stores it and a load of that region returns the content exactly; content
that trims to empty (which includes the all-blank full-size buffer)
deletes the stored key instead, so a subsequent load reports the region
as absent. -/
theorem saveRegion_roundtrip (storage : List (String × String))
    (region : String) (content : String)
    (hlen : content.length = REGION_WIDTH * REGION_HEIGHT)
    (hne : (jsTrim content).length ≠ 0) :
    saveRegion storage region content = .ok (mapSet storage region content) ∧
    regionDataView (mapSet storage region content) region = some content ∧
    (∀ content2 : String, (jsTrim content2).length = 0 →
      saveRegion storage region content2 = .ok (mapDelete storage region) ∧
      regionDataView (mapDelete storage region) region = none) := by
  refine ⟨?_, ?_, fun content2 h2 => ⟨?_, ?_⟩⟩
  · unfold saveRegion
    rw [if_neg hne, if_neg (by rw [hlen]; exact fun h => h rfl)]
  · unfold regionDataView
    rw [mapGet_mapSet_self]
    dsimp only
    have hz : (content.length == 0) = false := by
      rw [hlen]; rfl
    rw [hz]
    rfl
  · unfold saveRegion
    rw [if_pos h2]
  · unfold regionDataView
    rw [mapGet_mapDelete_self]

/-- A non-blank full-size content buffer: 3456 copies of `'a'`. -/
def fullContent : String :=
  String.mk (List.replicate (REGION_WIDTH * REGION_HEIGHT) 'a')

/-- Witness for the hypotheses of `saveRegion_roundtrip`, at `fullContent`
in an empty store. -/
theorem saveRegion_roundtrip_witness :
    saveRegion [] "1-1" fullContent = .ok (mapSet [] "1-1" fullContent) ∧
    regionDataView (mapSet [] "1-1" fullContent) "1-1" = some fullContent ∧
    (∀ content2 : String, (jsTrim content2).length = 0 →
      saveRegion [] "1-1" content2 = .ok (mapDelete [] "1-1") ∧
      regionDataView (mapDelete ([] : List (String × String)) "1-1") "1-1" = none) :=
  saveRegion_roundtrip [] "1-1" fullContent
    (by
      show (List.replicate (REGION_WIDTH * REGION_HEIGHT) 'a').length
        = REGION_WIDTH * REGION_HEIGHT
      exact List.length_replicate _ _)
    (by
      unfold jsTrim fullContent
      rw [show (String.mk (List.replicate (REGION_WIDTH * REGION_HEIGHT) 'a')).data
            = List.replicate (REGION_WIDTH * REGION_HEIGHT) 'a' from rfl,
        jsTrimChars_eq_self
          (fun c hc => by rw [List.eq_of_mem_replicate hc]; rfl)]
      show (List.replicate (REGION_WIDTH * REGION_HEIGHT) 'a').length ≠ 0
      rw [List.length_replicate]
      decide)

/-- De-duplication keeping the first occurrence of each element: the
spec's description of step 2 of `reconcile`. -/
def dedupKeepFirst : List String → List String
  | [] => []
  | x :: xs => x :: dedupKeepFirst (xs.filter (fun y => decide (y ≠ x)))
termination_by l => l.length
decreasing_by
  simp only [List.length_cons]
  exact Nat.lt_succ_of_le (List.length_filter_le _ _)

theorem foldl_dedup_aux (l : List String) :
    ∀ acc : List String,
      l.foldl (fun accum region =>
        if region ∈ accum then accum else accum ++ [region]) acc
      = acc ++ dedupKeepFirst (l.filter (fun y => decide (y ∉ acc))) := by
  induction l with
  | nil => intro acc; simp [dedupKeepFirst]
  | cons x xs ih =>
      intro acc
      rw [List.foldl_cons, List.filter_cons]
      by_cases hx : x ∈ acc
      · have hd : decide (x ∉ acc) = false := by simp [hx]
        rw [if_pos hx, hd]
        simp only [Bool.false_eq_true, if_false]
        exact ih acc
      · have hd : decide (x ∉ acc) = true := by simp [hx]
        rw [if_neg hx, hd]
        simp only [if_true]
        rw [ih (acc ++ [x])]
        have hunf : dedupKeepFirst (x :: xs.filter (fun y => decide (y ∉ acc)))
            = x :: dedupKeepFirst ((xs.filter (fun y => decide (y ∉ acc))).filter
                (fun y => decide (y ≠ x))) := by
          simp only [dedupKeepFirst]
        rw [hunf]
        have hfilter : xs.filter (fun y => decide (y ∉ acc ++ [x]))
            = (xs.filter (fun y => decide (y ∉ acc))).filter
                (fun y => decide (y ≠ x)) := by
          rw [List.filter_filter]
          apply List.filter_congr
          intro y _
          simp [List.mem_append, not_or, and_comm]
        rw [hfilter, List.append_assoc]
        rfl

theorem foldl_dedup (l : List String) :
    l.foldl (fun accum region =>
      if region ∈ accum then accum else accum ++ [region]) []
    = dedupKeepFirst l := by
  rw [foldl_dedup_aux l []]
  simp

/-- **C3**: for every existing ordered subscription list and every
requested list accepted by `subscribe`, the reply's `subscribedRegions`
is the concatenation of existing-then-requested, deduplicated keeping
the first occurrence (`dedupKeepFirst`), then truncated by dropping
elements from the front until at most `MAX_ACTIVE_REGIONS` remain; the
reply's `unsubscribedRegions` is exactly that dropped prefix. -/
theorem subscribe_reply_spec (st : RoomState) (ws : ℕ)
    (regions existing : List String)
    (hcs : mapGet st.clients ws = some { subscribedRegions := existing })
    (hne : regions ≠ [])
    (hlen : regions.length ≤ MAX_ACTIVE_REGIONS)
    (hval : ∀ r ∈ regions, isValidRegion r = true) :
    (subscribe st ws (.given regions)).2 =
      [(ws, .subscriptions
          ((dedupKeepFirst (existing ++ regions)).drop
            ((dedupKeepFirst (existing ++ regions)).length - MAX_ACTIVE_REGIONS))
          ((dedupKeepFirst (existing ++ regions)).take
            ((dedupKeepFirst (existing ++ regions)).length - MAX_ACTIVE_REGIONS))),
       (ws, .regionData (sendRegionsData st.storage
          ((dedupKeepFirst (existing ++ regions)).drop
            ((dedupKeepFirst (existing ++ regions)).length - MAX_ACTIVE_REGIONS))))] := by
  unfold subscribe
  dsimp only
  rw [if_neg (fun h => hne (List.length_eq_zero.mp h))]
  rw [if_neg (Nat.not_lt.mpr hlen)]
  have hany : (regions.any fun region => !isValidRegion region) = false := by
    rw [List.any_eq_false]
    intro r hr
    simp [hval r hr]
  simp only [hany, Bool.false_eq_true, if_false]
  rw [hcs]
  dsimp only [Option.getD]
  rw [foldl_dedup]
  have hstor : ∀ (s1 : RoomState) (rs us : List String),
      (removeClientFromRegions (addClientToRegions (triggerClientSave s1 ws) ws rs)
        ws (some us)).storage = s1.storage := by
    intro s1 rs us
    rw [removeClientFromRegions_storage, addClientToRegions_storage,
      triggerClientSave_storage]
  rw [hstor]

/-- A room with client `0` subscribed and indexed for `"1-1"`. -/
def w3State : RoomState :=
  { clients := [(0, { subscribedRegions := ["1-1"] })],
    activeRegions := [("1-1", [0])], attachments := [], storage := [] }

/-- Witness for the hypotheses of `subscribe_reply_spec`: client `0`, with
existing list `["1-1"]`, requests `["2-2", "1-1"]`. -/
theorem subscribe_reply_spec_witness :
    (subscribe w3State 0 (.given ["2-2", "1-1"])).2 =
      [(0, .subscriptions
          ((dedupKeepFirst (["1-1"] ++ ["2-2", "1-1"])).drop
            ((dedupKeepFirst (["1-1"] ++ ["2-2", "1-1"])).length - MAX_ACTIVE_REGIONS))
          ((dedupKeepFirst (["1-1"] ++ ["2-2", "1-1"])).take
            ((dedupKeepFirst (["1-1"] ++ ["2-2", "1-1"])).length - MAX_ACTIVE_REGIONS))),
       (0, .regionData (sendRegionsData w3State.storage
          ((dedupKeepFirst (["1-1"] ++ ["2-2", "1-1"])).drop
            ((dedupKeepFirst (["1-1"] ++ ["2-2", "1-1"])).length - MAX_ACTIVE_REGIONS))))] :=
  subscribe_reply_spec w3State 0 ["2-2", "1-1"] ["1-1"] rfl (by decide) (by decide)
    (by decide)

theorem update_state_id (st : RoomState) (ws : ℕ) (data : UpdatesRequest) :
    (update st ws data).1 = st := by
  cases data with
  | malformed => rfl
  | given updates =>
      unfold update; dsimp only
      split
      · rfl
      split
      · rfl
      split <;> (try rfl)
      split <;> rfl

/-- **C4**: for every accepted update batch from a connection with a
registered state: when the sender is subscribed to every named region,
each update is delivered — as a freshly built `freshUpdateMessage` copy —
to every connection in the region's Index entry other than the sender,
never echoed back to the sender, with no state change; when some region
is not subscribed, the whole batch is rejected with the NotSubscribed
error and no update envelope is sent to anyone. -/
theorem update_broadcast_spec (st : RoomState) (ws : ℕ)
    (updates : List UpdateMsg) (cs : ClientState)
    (hne : updates ≠ [])
    (hval : ∀ u ∈ updates, isValidUpdate u = true)
    (hcs : mapGet st.clients ws = some cs) :
    (update st ws (.given updates)).1 = st ∧
    ((∀ u ∈ updates, u.region ∈ cs.subscribedRegions) →
      (∀ u ∈ updates, ∀ c ∈ (mapGet st.activeRegions u.region).getD [], c ≠ ws →
        (c, OutMsg.updateMsg (freshUpdateMessage u)) ∈ (update st ws (.given updates)).2) ∧
      (∀ m : UpdateMsg, (ws, OutMsg.updateMsg m) ∉ (update st ws (.given updates)).2)) ∧
    ((∃ u ∈ updates, u.region ∉ cs.subscribedRegions) →
      (update st ws (.given updates)).2 =
        [(ws, .error "Attempted to update regions which client is not subscribed to")] ∧
      ∀ (c : ℕ) (m : UpdateMsg), (c, OutMsg.updateMsg m) ∉ (update st ws (.given updates)).2) := by
  have hev : (update st ws (.given updates)) =
      (st,
        if updates.any (fun u => decide (u.region ∉ cs.subscribedRegions)) then
          [(ws, .error "Attempted to update regions which client is not subscribed to")]
        else
          (updates.map (fun change =>
            if ((mapGet st.activeRegions change.region).getD []).length = 0 then []
            else ((mapGet st.activeRegions change.region).getD []).filter
                (fun client => decide (client ≠ ws)) |>.map
              (fun client => (client, OutMsg.updateMsg (freshUpdateMessage change))))).flatten) := by
    unfold update; dsimp only
    rw [if_neg (fun h => hne (List.length_eq_zero.mp h))]
    have hany : (updates.any fun u => !isValidUpdate u) = false := by
      rw [List.any_eq_false]
      intro u hu
      simp [hval u hu]
    simp only [hany, Bool.false_eq_true, if_false]
    rw [hcs]
    dsimp only
    split <;> rfl
  refine ⟨by rw [hev], fun hsub => ⟨?_, ?_⟩, fun hnsub => ⟨?_, ?_⟩⟩
  · intro u hu c hc hcne
    have hany2 : (updates.any fun u => decide (u.region ∉ cs.subscribedRegions)) = false := by
      rw [List.any_eq_false]
      intro v hv
      simp [hsub v hv]
    rw [hev]
    simp only [hany2, Bool.false_eq_true, if_false]
    apply List.mem_flatten.mpr
    refine ⟨_, List.mem_map_of_mem _ hu, ?_⟩
    have hlen0 : ¬ ((mapGet st.activeRegions u.region).getD []).length = 0 := by
      intro h0
      rw [List.length_eq_zero] at h0
      rw [h0] at hc
      exact absurd hc (List.not_mem_nil c)
    rw [if_neg hlen0]
    exact List.mem_map.mpr ⟨c, List.mem_filter.mpr ⟨hc, by simp [hcne]⟩, rfl⟩
  · intro m hm
    rw [hev] at hm
    simp only at hm
    rcases hy : (updates.any fun u => decide (u.region ∉ cs.subscribedRegions)) with _ | _
    · rw [hy] at hm
      simp only [Bool.false_eq_true, if_false] at hm
      obtain ⟨s, hs, hmem⟩ := List.mem_flatten.mp hm
      obtain ⟨u, hu, rfl⟩ := List.mem_map.mp hs
      by_cases hl : ((mapGet st.activeRegions u.region).getD []).length = 0
      · rw [if_pos hl] at hmem
        exact absurd hmem (List.not_mem_nil _)
      · rw [if_neg hl] at hmem
        obtain ⟨c, hcf, he⟩ := List.mem_map.mp hmem
        have hcne : (decide (c ≠ ws)) = true := (List.mem_filter.mp hcf).2
        have : c = ws := (Prod.mk.injEq _ _ _ _).mp he |>.1
        rw [this] at hcne
        simp at hcne
    · rw [hy] at hm
      simp only [if_true] at hm
      rcases List.mem_singleton.mp hm with h
      cases h
  · have hany2 : (updates.any fun u => decide (u.region ∉ cs.subscribedRegions)) = true := by
      rw [List.any_eq_true]
      obtain ⟨u, hu, hnm⟩ := hnsub
      exact ⟨u, hu, by simp [hnm]⟩
    rw [hev]
    simp only [hany2, if_true]
  · intro c m hm
    rw [hev] at hm
    have hany2 : (updates.any fun u => decide (u.region ∉ cs.subscribedRegions)) = true := by
      rw [List.any_eq_true]
      obtain ⟨u, hu, hnm⟩ := hnsub
      exact ⟨u, hu, by simp [hnm]⟩
    simp only [hany2, if_true] at hm
    rcases List.mem_singleton.mp hm with h
    cases h

/-- Clients `0` and `1` both subscribed and indexed for `"1-1"`. -/
def w4State : RoomState :=
  { clients := [(0, { subscribedRegions := ["1-1"] }),
      (1, { subscribedRegions := ["1-1"] })],
    activeRegions := [("1-1", [0, 1])], attachments := [], storage := [] }

/-- A valid single-cell edit on `"1-1"`. -/
def w4Update : UpdateMsg := { region := "1-1", x := 3, y := 4, value := "a" }

/-- Witness for the hypotheses of `update_broadcast_spec`: client `0`
sends one valid update on `"1-1"`, which both `0` and `1` subscribe to. -/
theorem update_broadcast_spec_witness :
    (update w4State 0 (.given [w4Update])).1 = w4State ∧
    ((∀ u ∈ [w4Update],
        u.region ∈ ({ subscribedRegions := ["1-1"] } : ClientState).subscribedRegions) →
      (∀ u ∈ [w4Update], ∀ c ∈ (mapGet w4State.activeRegions u.region).getD [], c ≠ 0 →
        (c, OutMsg.updateMsg (freshUpdateMessage u)) ∈ (update w4State 0 (.given [w4Update])).2) ∧
      (∀ m : UpdateMsg, (0, OutMsg.updateMsg m) ∉ (update w4State 0 (.given [w4Update])).2)) ∧
    ((∃ u ∈ [w4Update],
        u.region ∉ ({ subscribedRegions := ["1-1"] } : ClientState).subscribedRegions) →
      (update w4State 0 (.given [w4Update])).2 =
        [(0, .error "Attempted to update regions which client is not subscribed to")] ∧
      ∀ (c : ℕ) (m : UpdateMsg),
        (c, OutMsg.updateMsg m) ∉ (update w4State 0 (.given [w4Update])).2) :=
  update_broadcast_spec w4State 0 [w4Update] { subscribedRegions := ["1-1"] }
    (by decide) (by decide) rfl

theorem mapGet_some_mem {α β : Type} [DecidableEq α] {m : List (α × β)} {k : α}
    {v : β} (h : mapGet m k = some v) : (k, v) ∈ m := by
  induction m with
  | nil => cases h
  | cons e rest ih =>
      obtain ⟨k', w⟩ := e
      by_cases hk : k = k'
      · subst hk
        rw [mapGet, if_pos rfl] at h
        cases h
        exact List.mem_cons_self _ _
      · rw [mapGet, if_neg hk] at h
        exact List.mem_cons_of_mem _ (ih h)

theorem mem_mapSet {α β : Type} [DecidableEq α] {m : List (α × β)} {k : α}
    {v : β} {p : α × β} (h : p ∈ mapSet m k v) : p = (k, v) ∨ p ∈ m := by
  induction m with
  | nil => simp only [mapSet] at h; exact Or.inl (List.mem_singleton.mp h)
  | cons e rest ih =>
      obtain ⟨k', w⟩ := e
      by_cases hk : k = k'
      · subst hk
        rw [mapSet, if_pos rfl] at h
        rcases List.mem_cons.mp h with h1 | h1
        · exact Or.inl h1
        · exact Or.inr (List.mem_cons_of_mem _ h1)
      · rw [mapSet, if_neg hk] at h
        rcases List.mem_cons.mp h with h1 | h1
        · exact Or.inr (h1 ▸ List.mem_cons_self _ _)
        · rcases ih h1 with h2 | h2
          · exact Or.inl h2
          · exact Or.inr (List.mem_cons_of_mem _ h2)

theorem mem_mapDelete {α β : Type} [DecidableEq α] {m : List (α × β)} {k : α}
    {p : α × β} (h : p ∈ mapDelete m k) : p ∈ m := by
  induction m with
  | nil => simp [mapDelete] at h
  | cons e rest ih =>
      obtain ⟨k', w⟩ := e
      by_cases hk : k = k'
      · rw [mapDelete, if_pos hk] at h
        exact List.mem_cons_of_mem _ (ih h)
      · rw [mapDelete, if_neg hk] at h
        rcases List.mem_cons.mp h with h1 | h1
        · exact h1 ▸ List.mem_cons_self _ _
        · exact List.mem_cons_of_mem _ (ih h1)

theorem removeOneRegion_eq_self {s : RoomState} {ws : ℕ} {region : String}
    (h : ws ∉ (mapGet s.activeRegions region).getD []) :
    removeOneRegion s ws region = s := by
  unfold removeOneRegion
  dsimp only
  rw [if_pos h]

theorem removeOneRegion_eq_delete {s : RoomState} {ws : ℕ} {region : String}
    (h : ws ∈ (mapGet s.activeRegions region).getD [])
    (h0 : (((mapGet s.activeRegions region).getD []).erase ws).length = 0) :
    removeOneRegion s ws region = unloadRegion s region := by
  unfold removeOneRegion
  dsimp only
  rw [if_neg (not_not_intro h), if_pos h0]

theorem removeOneRegion_set_activeRegions {s : RoomState} {ws : ℕ}
    {region : String}
    (h : ws ∈ (mapGet s.activeRegions region).getD [])
    (h0 : ¬(((mapGet s.activeRegions region).getD []).erase ws).length = 0) :
    (removeOneRegion s ws region).activeRegions
      = mapSet s.activeRegions region
          (((mapGet s.activeRegions region).getD []).erase ws) := by
  unfold removeOneRegion
  dsimp only
  rw [if_neg (not_not_intro h), if_neg h0]

theorem removeOneRegion_nodup {s : RoomState} {ws : ℕ} {region : String}
    (hnd : ∀ p ∈ s.activeRegions, (p.2 : List ℕ).Nodup) :
    ∀ p ∈ (removeOneRegion s ws region).activeRegions, (p.2 : List ℕ).Nodup := by
  by_cases h : ws ∈ (mapGet s.activeRegions region).getD []
  · by_cases h0 : (((mapGet s.activeRegions region).getD []).erase ws).length = 0
    · rw [removeOneRegion_eq_delete h h0]
      intro p hp
      exact hnd p (mem_mapDelete hp)
    · intro p hp
      rw [removeOneRegion_set_activeRegions h h0] at hp
      rcases mem_mapSet hp with h1 | h1
      · rw [h1]
        rcases hg : mapGet s.activeRegions region with _ | l0
        · simp
        · simp only [Option.getD_some]
          exact List.Nodup.erase ws (hnd (region, l0) (mapGet_some_mem hg))
      · exact hnd p h1
  · rw [removeOneRegion_eq_self h]
    exact hnd

theorem removeOneRegion_self {s : RoomState} {ws : ℕ} {region : String}
    (hnd : ∀ p ∈ s.activeRegions, (p.2 : List ℕ).Nodup) :
    ∀ l, mapGet (removeOneRegion s ws region).activeRegions region = some l →
      ws ∉ l := by
  intro l hl
  by_cases h : ws ∈ (mapGet s.activeRegions region).getD []
  · by_cases h0 : (((mapGet s.activeRegions region).getD []).erase ws).length = 0
    · rw [removeOneRegion_eq_delete h h0, unloadRegion, mapGet_mapDelete_self] at hl
      cases hl
    · rw [removeOneRegion_set_activeRegions h h0, mapGet_mapSet_self] at hl
      cases hl
      rcases hg : mapGet s.activeRegions region with _ | l0
      · rw [hg] at h
        simp at h
      · rw [hg] at h
        simp only [Option.getD_some] at h ⊢
        intro hmem
        have hnodup := hnd (region, l0) (mapGet_some_mem hg)
        exact ((List.Nodup.mem_erase_iff hnodup).mp hmem).1 rfl
  · rw [removeOneRegion_eq_self h] at hl
    rw [hl] at h
    simpa using h

theorem removeOneRegion_other {s : RoomState} {ws : ℕ} {region r : String}
    (hne : r ≠ region) :
    mapGet (removeOneRegion s ws region).activeRegions r
      = mapGet s.activeRegions r := by
  by_cases h : ws ∈ (mapGet s.activeRegions region).getD []
  · by_cases h0 : (((mapGet s.activeRegions region).getD []).erase ws).length = 0
    · rw [removeOneRegion_eq_delete h h0, unloadRegion]
      exact mapGet_mapDelete_ne _ _ _ hne
    · rw [removeOneRegion_set_activeRegions h h0]
      exact mapGet_mapSet_ne _ _ _ _ hne
  · rw [removeOneRegion_eq_self h]

theorem removeOneRegion_preserves_not_mem {s : RoomState} {ws : ℕ}
    {region r : String}
    (h : ∀ l, mapGet s.activeRegions r = some l → ws ∉ l) :
    ∀ l, mapGet (removeOneRegion s ws region).activeRegions r = some l →
      ws ∉ l := by
  intro l hl
  by_cases he : r = region
  · subst he
    have hskip : ws ∉ (mapGet s.activeRegions r).getD [] := by
      rcases hg : mapGet s.activeRegions r with _ | l0
      · simp
      · simpa using h l0 hg
    rw [removeOneRegion_eq_self hskip] at hl
    exact h l hl
  · rw [removeOneRegion_other he] at hl
    exact h l hl

theorem removeClientFromRegions_cons (st : RoomState) (ws : ℕ) (r : String)
    (rs : List String) :
    removeClientFromRegions st ws (some (r :: rs))
      = removeClientFromRegions (removeOneRegion st ws r) ws (some rs) := rfl

theorem fold_preserves_not_mem {ws : ℕ} {r : String} (rs : List String) :
    ∀ st : RoomState, (∀ l, mapGet st.activeRegions r = some l → ws ∉ l) →
      ∀ l, mapGet (removeClientFromRegions st ws (some rs)).activeRegions r
        = some l → ws ∉ l := by
  induction rs with
  | nil => intro st h; exact h
  | cons r2 rs2 ih =>
      intro st h
      rw [removeClientFromRegions_cons]
      exact ih _ (removeOneRegion_preserves_not_mem h)

theorem removeClientFromRegions_removes {ws : ℕ} (rs : List String) :
    ∀ st : RoomState, (∀ p ∈ st.activeRegions, (p.2 : List ℕ).Nodup) →
      ∀ r ∈ rs, ∀ l,
        mapGet (removeClientFromRegions st ws (some rs)).activeRegions r
          = some l → ws ∉ l := by
  induction rs with
  | nil => intro st _ r hr; cases hr
  | cons r2 rs2 ih =>
      intro st hnd r hr
      rw [removeClientFromRegions_cons]
      rcases List.mem_cons.mp hr with h1 | h1
      · subst h1
        exact fold_preserves_not_mem rs2 _ (removeOneRegion_self hnd)
      · exact ih _ (removeOneRegion_nodup hnd) r h1

theorem removeClientFromRegions_frame {ws : ℕ} (rs : List String) :
    ∀ st : RoomState, ∀ r, r ∉ rs →
      mapGet (removeClientFromRegions st ws (some rs)).activeRegions r
        = mapGet st.activeRegions r := by
  induction rs with
  | nil => intro st r _; rfl
  | cons r2 rs2 ih =>
      intro st r hr
      rw [removeClientFromRegions_cons]
      rw [ih _ r (fun hm => hr (List.mem_cons_of_mem _ hm))]
      exact removeOneRegion_other (fun he => hr (he ▸ List.mem_cons_self _ _))

/-- The connection's subscription list after removing `regions`, order
preserved (the `existingRegions.filter` in `unsubscribe`). -/
def filteredCS (cs : ClientState) (regions : List String) : ClientState :=
  { subscribedRegions := cs.subscribedRegions.filter (fun r => decide (r ∉ regions)) }

/-- **C9** (amended): `unsubscribe` fails with `MalformedRequest` when
`regions` is missing or not a list and with `InvalidRegion` when any
entry is invalid — but, unlike `subscribe`, it has *no* emptiness check
(an empty list is a silent no-op; see the counterexample) — and on
success it removes exactly the given regions from the connection's
ordered list (order of the rest preserved), removes the connection from
each removed region's Index entry, updates the attachment, and sends no
reply. -/
theorem unsubscribe_spec (st : RoomState) (ws : ℕ) (regions : List String)
    (cs : ClientState)
    (hnd : ∀ p ∈ st.activeRegions, (p.2 : List ℕ).Nodup)
    (hcs : mapGet st.clients ws = some cs) :
    (unsubscribe st ws .malformed).2
        = [(ws, .error "Unsubscribe request is malformed")] ∧
    ((∃ r ∈ regions, isValidRegion r = false) →
      unsubscribe st ws (.given regions)
        = (st, [(ws, .error "One or more region keys is invalid")])) ∧
    ((∀ r ∈ regions, isValidRegion r = true) →
      (unsubscribe st ws (.given regions)).2 = [] ∧
      mapGet (unsubscribe st ws (.given regions)).1.clients ws
        = some (filteredCS cs regions) ∧
      mapGet (unsubscribe st ws (.given regions)).1.attachments ws
        = some (filteredCS cs regions) ∧
      (∀ r ∈ regions, ∀ l,
        mapGet (unsubscribe st ws (.given regions)).1.activeRegions r = some l →
          ws ∉ l) ∧
      (∀ r, r ∉ regions →
        mapGet (unsubscribe st ws (.given regions)).1.activeRegions r
          = mapGet st.activeRegions r)) := by
  refine ⟨rfl, ?_, ?_⟩
  · rintro ⟨r, hr, hinv⟩
    have hany : (regions.any fun region => !isValidRegion region) = true :=
      List.any_eq_true.mpr ⟨r, hr, by simp [hinv]⟩
    unfold unsubscribe
    dsimp only
    simp only [hany, if_true]
  · intro hval
    have hany : (regions.any fun region => !isValidRegion region) = false := by
      rw [List.any_eq_false]
      intro r hr
      simp [hval r hr]
    have hev : unsubscribe st ws (.given regions) =
        (removeClientFromRegions
          (triggerClientSave
            { st with clients := mapSet st.clients ws (filteredCS cs regions) } ws)
          ws (some regions), []) := by
      unfold unsubscribe
      dsimp only
      simp only [hany, Bool.false_eq_true, if_false]
      rw [hcs]
      rfl
    have hsave : triggerClientSave
        { st with clients := mapSet st.clients ws (filteredCS cs regions) } ws =
        { st with clients := mapSet st.clients ws (filteredCS cs regions),
                  attachments := mapSet st.attachments ws (filteredCS cs regions) } := by
      unfold triggerClientSave
      rw [mapGet_mapSet_self]
    rw [hev, hsave]
    refine ⟨rfl, ?_, ?_, ?_, ?_⟩
    · rw [removeClientFromRegions_clients]
      exact mapGet_mapSet_self _ _ _
    · rw [removeClientFromRegions_attachments]
      exact mapGet_mapSet_self _ _ _
    · exact removeClientFromRegions_removes regions _ hnd
    · intro r hr
      exact removeClientFromRegions_frame regions _ r hr

/-- **C9** counterexample: an unsubscribe with an empty `regions` list is
accepted as a silent no-op (no error envelope, state unchanged), not
rejected with `EmptyRequest` as the claim requires. -/
theorem unsubscribe_empty_request_not_rejected :
    unsubscribe twoClientRoom 0 (.given []) = (twoClientRoom, []) := by decide

/-- Witness for the hypotheses of `unsubscribe_spec`: client `0` of
`twoClientRoom` unsubscribes from `["1-1"]`. -/
theorem unsubscribe_spec_witness :
    (unsubscribe twoClientRoom 0 .malformed).2
        = [(0, .error "Unsubscribe request is malformed")] ∧
    ((∃ r ∈ ["1-1"], isValidRegion r = false) →
      unsubscribe twoClientRoom 0 (.given ["1-1"])
        = (twoClientRoom, [(0, .error "One or more region keys is invalid")])) ∧
    ((∀ r ∈ ["1-1"], isValidRegion r = true) →
      (unsubscribe twoClientRoom 0 (.given ["1-1"])).2 = [] ∧
      mapGet (unsubscribe twoClientRoom 0 (.given ["1-1"])).1.clients 0
        = some (filteredCS { subscribedRegions := ["1-1"] } ["1-1"]) ∧
      mapGet (unsubscribe twoClientRoom 0 (.given ["1-1"])).1.attachments 0
        = some (filteredCS { subscribedRegions := ["1-1"] } ["1-1"]) ∧
      (∀ r ∈ ["1-1"], ∀ l,
        mapGet (unsubscribe twoClientRoom 0 (.given ["1-1"])).1.activeRegions r
          = some l → 0 ∉ l) ∧
      (∀ r, r ∉ ["1-1"] →
        mapGet (unsubscribe twoClientRoom 0 (.given ["1-1"])).1.activeRegions r
          = mapGet twoClientRoom.activeRegions r)) :=
  unsubscribe_spec twoClientRoom 0 ["1-1"] { subscribedRegions := ["1-1"] }
    (by decide) (by decide)
